import Mathlib

/-!
Shallow embedding of `src/DownloadLineage.py` (the `Downloader` class):
catalog loading (`download_file_version_document`), verified single-file
fetch (`download_single_file`), per-dataset download and extraction
(`download_lineage`), the startup loop of `Downloader.__init__`, and the
availability query (`has_local_lineage`).

The external environment (filesystem contents, network, the md5 digest of
a byte string, tar extraction) is a `World` record of oracles; the Python
functions become state transformers on `World`.  Exceptions are modelled
by the `Res` type, which carries the world at the point the exception
escapes, so that side effects performed before a raise stay observable.
-/

namespace Minibusco

/-- Association list used for both the filesystem (path to content) and the
Python dict `lineage_description` (name to list of string fields). -/
abbrev Dict (α : Type) := List (String × α)

/-- First binding for a key, mirroring a Python dict lookup (keys are kept
unique by `dictInsert`). -/
def dictGet (d : Dict α) (k : String) : Option α :=
  match d with
  | [] => none
  | q :: t => if q.1 = k then some q.2 else dictGet t k

/-- Python dict assignment `d[k] = v`: overwrite in place if the key exists
(keeping its position), otherwise append. -/
def dictInsert (d : Dict α) (k : String) (v : α) : Dict α :=
  match d with
  | [] => [(k, v)]
  | q :: t => if q.1 = k then (k, v) :: t else q :: dictInsert t k v

/-- Write a file (create or overwrite), as `urllib.request.urlretrieve` and
plain file writes do. -/
def fsWrite (fs : Dict String) (p c : String) : Dict String :=
  dictInsert fs p c

/-- Read a file's content, `none` when the path does not exist. -/
def fsLookup (fs : Dict String) (p : String) : Option String :=
  dictGet fs p

/-- `os.remove p` effect on the file map (the caller models the
`FileNotFoundError` when the path is absent). -/
def fsRemove (fs : Dict String) (p : String) : Dict String :=
  match fs with
  | [] => []
  | q :: t => if q.1 = p then fsRemove t p else q :: fsRemove t p

/-- `pre` is a string prefix of `s` (what `str.startswith` decides). -/
def strHasPre (pre s : String) : Bool :=
  pre.data.isPrefixOf s.data

/-- `shutil.rmtree dirp` effect: every file whose path lies strictly under
`dirp` disappears. -/
def fsRemoveTree (fs : Dict String) (dirp : String) : Dict String :=
  match fs with
  | [] => []
  | q :: t =>
      if strHasPre (dirp ++ "/") q.1 then fsRemoveTree t dirp
      else q :: fsRemoveTree t dirp

/-- The Python exceptions that can escape the translated code. -/
inductive PyErr where
  | keyError (k : String)
  | typeError
  | valueError
  | fileNotFound (p : String)
  | fatal (msg : String)
deriving DecidableEq, Repr

/-- Modelled from the spec: the source does `from utils import Error`, and the
`utils` module is not among the sources.  Per the spec's error-handling design,
`Error` is the fatal error type ("unable to download necessary files",
"invalid lineage name"), distinct from the transport-failure type and from the
built-in KeyError, so an `except KeyError` handler does not catch it. -/
def utilsError (msg : String) : PyErr := PyErr.fatal msg

/-- The external environment: local files, the network (URL to content,
`none` meaning a transport failure raising URLError at `urlretrieve`), the
content digest function modelling `md5`, and tar extraction (archive content
to a list of relative path / content pairs).  `reqs` logs every attempted
network request; `out` logs every `print`. -/
structure World where
  files : Dict String
  net : String → Option String
  hash : String → String
  extract : String → List (String × String)
  reqs : List String
  out : List String

/-- `md5(path)` from the source: digest of the file's content; `none` models
the IOError raised when the path does not exist. -/
def md5File (w : World) (p : String) : Option String :=
  (fsLookup w.files p).map w.hash

/-- Outcome of a translated Python call: normal return or escaping exception,
both carrying the world (side effects persist across a raise). -/
inductive Res (α : Type) where
  | ok (w : World) (a : α)
  | err (w : World) (e : PyErr)

/-- The escaping exception of a result, if any. -/
def Res.errOf : Res α → Option PyErr
  | .err _ e => some e
  | .ok _ _ => none

/-- The returned value of a result, if it returned normally. -/
def Res.valOf : Res α → Option α
  | .err _ _ => none
  | .ok _ a => some a

/-- The world a result ends in. -/
def Res.worldOf : Res α → World
  | .err w _ => w
  | .ok w _ => w

/-- Sequencing of translated calls. -/
def Res.andThen (r : Res α) (f : World → α → Res β) : Res β :=
  match r with
  | .ok w a => f w a
  | .err w e => .err w e

/-- Python `str.strip()`: drop whitespace from both ends (structural, over
the character list, so that it evaluates inside the kernel). -/
def pyStrip (s : String) : String :=
  String.mk
    (((s.data.dropWhile Char.isWhitespace).reverse.dropWhile
      Char.isWhitespace).reverse)

/-- Split a character list at newline characters (the pieces, in order,
without the newlines). -/
def splitNl : List Char → List Char → List (List Char)
  | [], acc => [acc.reverse]
  | ch :: t, acc =>
      if ch = '\n' then acc.reverse :: splitNl t []
      else splitNl t (ch :: acc)

/-- The lines Python's file iteration yields (minus their newline
terminators): a trailing newline does not produce an extra empty line. -/
def pyLines (c : String) : List String :=
  if c.data = [] then []
  else if c.data.getLast? = some '\n' then
    ((splitNl c.data []).map String.mk).dropLast
  else (splitNl c.data []).map String.mk

/-- Helper for `pySplit`: split at whitespace runs, accumulating the current
field reversed. -/
def pySplitAux : List Char → List Char → List String
  | [], acc => if acc = [] then [] else [String.mk acc.reverse]
  | ch :: t, acc =>
      if Char.isWhitespace ch then
        if acc = [] then pySplitAux t []
        else String.mk acc.reverse :: pySplitAux t []
      else pySplitAux t (ch :: acc)

/-- Python `str.split()` with no argument: split on whitespace runs,
discarding empty pieces. -/
def pySplit (s : String) : List String :=
  pySplitAux s.data []

/-- `fin.readline().strip()`: the first line of a file's content, stripped. -/
def firstLineStrip (c : String) : String :=
  pyStrip (String.mk ((splitNl c.data []).headD []))

/-- `self.base_url` as set by `Downloader.__init__`. -/
def busco_base_url : String := "https://busco-data.ezlab.org/v5/data/"

/-- `self.default_lineage` as set by `Downloader.__init__`. -/
def default_lineage_names : List String :=
  ["archaea_odb10", "bacteria_odb10", "eukaryota_odb10"]

/-- `os.path.join(download_dir, lineage)`: the extracted dataset directory. -/
def lineageDir (dir l : String) : String := dir ++ "/" ++ l

/-- `os.path.join(download_dir, "{lineage}/refseq_db.faa.gz")`: the reference
file whose digest the startup loop checks. -/
def refseqPath (dir l : String) : String :=
  (lineageDir dir l ++ "/") ++ "refseq_db.faa.gz"

/-- `os.path.join(download_dir, "{lineage}.{date}.tar.gz")`: where a dataset
archive is downloaded. -/
def archivePath (dir l date : String) : String :=
  dir ++ "/" ++ l ++ "." ++ date ++ ".tar.gz"

/-- Remote URL of a dataset archive. -/
def archiveURL (base l date : String) : String :=
  base ++ "lineages/" ++ l ++ "." ++ date ++ ".tar.gz"

/-- `Downloader.download_single_file(remote, local, expected_hash)`:
retrieve the URL into the local path; on transport failure print and return
`false`; otherwise compare the md5 digest with the expected one, and on
mismatch print, delete the file and raise `Error`; on match print and return
`true`. -/
def download_single_file (w : World)
    (remote_filepath local_filepath expected_hash : String) : Res Bool :=
  let w1 : World := { w with reqs := w.reqs ++ [remote_filepath] }
  match w.net remote_filepath with
  | none =>
      Res.ok { w1 with out := w1.out ++ ["Cannot reach " ++ remote_filepath] } false
  | some content =>
      let w2 : World := { w1 with files := fsWrite w1.files local_filepath content }
      let observed_hash := w.hash content
      if observed_hash = expected_hash then
        Res.ok { w2 with out := w2.out ++
          ["Success download from " ++ remote_filepath,
           "md5 hash is " ++ observed_hash] } true
      else
        Res.err { w2 with
            out := w2.out ++
              ["md5 hash is incorrect: " ++ observed_hash ++ " while " ++
                 expected_hash ++ " expected",
               "deleting corrupted file " ++ local_filepath],
            files := fsRemove w2.files local_filepath }
          (utilsError "Unable to download necessary files")

/-- The manifest-parsing loop of `download_file_version_document`: each line
unpacks into five whitespace-separated fields (a wrong field count raises
ValueError); lines whose fifth field is not `"lineages"` are skipped; kept
lines are stored as `name ↦ [date, hash, category]`. -/
def parseManifestGo : List String → Dict (List String) →
    Except PyErr (Dict (List String))
  | [], d => .ok d
  | line :: rest, d =>
      match pySplit (pyStrip line) with
      | [strain, date, hash_value, category, info] =>
          if info ≠ "lineages" then parseManifestGo rest d
          else parseManifestGo rest
            (dictInsert d strain [date, hash_value, category])
      | _ => .error PyErr.valueError

/-- Parse the whole manifest file content. -/
def parseManifest (content : String) : Except PyErr (Dict (List String)) :=
  parseManifestGo (pyLines content) []

/-- `Downloader.download_file_version_document()`: fetch the detached hash
file (fatal `Error` on transport failure), read its first line as the
expected manifest digest, fetch the manifest through
`download_single_file`, and on success parse it; when the manifest fetch
reports unreachable, return `none` (Python `None`). -/
def download_file_version_document (w : World) (base_url download_dir : String) :
    Res (Option (Dict (List String))) :=
  let file_version_url := base_url ++ "file_versions.tsv"
  let file_version_download_path := download_dir ++ "/file_versions.tsv"
  let hash_url := base_url ++ "file_versions.tsv.hash"
  let hash_download_path := download_dir ++ "/file_versions.tsv.hash"
  let w1 : World := { w with reqs := w.reqs ++ [hash_url] }
  match w.net hash_url with
  | none =>
      Res.err { w1 with out := w1.out ++ ["Cannot reach " ++ hash_url] }
        (utilsError "Unable to download necessary files")
  | some hash_content =>
      let w2 : World := { w1 with files := fsWrite w1.files hash_download_path hash_content }
      match fsLookup w2.files hash_download_path with
      | none => Res.err w2 (PyErr.fileNotFound hash_download_path)
      | some hc =>
          let expected_file_version_hash := firstLineStrip hc
          match download_single_file w2 file_version_url
              file_version_download_path expected_file_version_hash with
          | .err w3 e => Res.err w3 e
          | .ok w3 download_success =>
              if download_success then
                match fsLookup w3.files file_version_download_path with
                | none => Res.err w3 (PyErr.fileNotFound file_version_download_path)
                | some mcontent =>
                    match parseManifest mcontent with
                    | .error e => Res.err w3 e
                    | .ok d => Res.ok w3 (some d)
              else
                Res.ok w3 none

/-- The orchestrator state: configuration plus the catalog
(`lineage_description`), which is `none` exactly when
`download_file_version_document` returned Python `None`. -/
structure Downloader where
  base_url : String
  download_dir : String
  default_lineage : List String
  lineage_description : Option (Dict (List String))

/-- The body of `Downloader.download_lineage` for one lineage name:
resolve `(date, expected_hash)` from the catalog entry (TypeError when the
catalog is `None`, KeyError when the name is absent, ValueError when the
entry has fewer than two fields), fetch the archive through
`download_single_file`, and on success extract it into the download
directory and append the local dataset directory to the entry. -/
def download_one_lineage (w : World) (d : Downloader) (lineage : String) :
    Res Downloader :=
  match d.lineage_description with
  | none => Res.err w PyErr.typeError
  | some desc =>
      match dictGet desc lineage with
      | none => Res.err w (PyErr.keyError lineage)
      | some entry =>
          match entry with
          | date :: expected_hash :: _ =>
              let remote_url := archiveURL d.base_url lineage date
              let download_path := archivePath d.download_dir lineage date
              match download_single_file w remote_url download_path expected_hash with
              | .err w1 e => Res.err w1 e
              | .ok w1 download_success =>
                  if download_success then
                    match fsLookup w1.files download_path with
                    | none => Res.err w1 (PyErr.fileNotFound download_path)
                    | some acontent =>
                        let w2 : World := { w1 with
                          files := (w.extract acontent).foldl
                            (fun fs pc => fsWrite fs (d.download_dir ++ "/" ++ pc.1) pc.2)
                            w1.files,
                          out := w1.out ++
                            ["Gene library extraction finished",
                             "Gene library ready! Reference file: " ++
                               refseqPath d.download_dir lineage] }
                        let local_lineage_dir := lineageDir d.download_dir lineage
                        let desc1 := dictInsert desc lineage (entry ++ [local_lineage_dir])
                        let d1 : Downloader := { d with lineage_description := some desc1 }
                        Res.ok w2 d1
                  else
                    Res.ok w1 d
          | _ => Res.err w PyErr.valueError

/-- The loop of `Downloader.download_lineage` over a list of names, each
iteration threading the world and the mutated catalog, any exception
escaping immediately. -/
def download_lineage_list (w : World) (d : Downloader) :
    List String → Res Downloader
  | [] => Res.ok w d
  | l :: rest =>
      match download_one_lineage w d l with
      | .err w1 e => Res.err w1 e
      | .ok w1 d1 => download_lineage_list w1 d1 rest

/-- `Downloader.download_lineage(lineage=None)`: `None` means the default
lineage list, otherwise the single given name. -/
def Downloader.download_lineage (w : World) (d : Downloader)
    (lineage : Option String) : Res Downloader :=
  match lineage with
  | none => download_lineage_list w d d.default_lineage
  | some l => download_lineage_list w d [l]

/-- The `try:` body of the per-lineage startup loop in
`Downloader.__init__`: look up the entry's expected hash (`[lineage][1]`),
and if the local reference file exists compare digests — appending the
reference-file path on a match, and on a mismatch printing, removing the
dataset directory tree and then `os.remove`-ing the reference file (which
the tree removal has already deleted); if the reference file does not
exist, fall to `download_lineage`. -/
def ensure_lineage_body (w : World) (d : Downloader) (lineage : String) :
    Res Downloader :=
  match d.lineage_description with
  | none => Res.err w PyErr.typeError
  | some desc =>
      match dictGet desc lineage with
      | none => Res.err w (PyErr.keyError lineage)
      | some entry =>
          match entry.get? 1 with
          | none => Res.err w PyErr.valueError
          | some expected_hash =>
              match fsLookup w.files (refseqPath d.download_dir lineage) with
              | some content =>
                  let observed_hash := w.hash content
                  if expected_hash = observed_hash then
                    let desc1 := dictInsert desc lineage
                      (entry ++ [refseqPath d.download_dir lineage])
                    let d1 : Downloader := { d with lineage_description := some desc1 }
                    Res.ok w d1
                  else
                    let w1 : World := { w with
                      out := w.out ++
                        ["md5 hash is incorrect: " ++ observed_hash ++ " while " ++
                           expected_hash ++ " expected"],
                      files := fsRemoveTree w.files (lineageDir d.download_dir lineage) }
                    match fsLookup w1.files (refseqPath d.download_dir lineage) with
                    | none =>
                        Res.err w1 (PyErr.fileNotFound (refseqPath d.download_dir lineage))
                    | some _ =>
                        Res.ok
                          { w1 with files :=
                              fsRemove w1.files (refseqPath d.download_dir lineage) }
                          d
              | none => download_one_lineage w d lineage

/-- One iteration of the startup loop, with its `except KeyError` handler
re-raising as the fatal "invalid lineage name" error; every other exception
escapes unchanged. -/
def ensure_lineage (w : World) (d : Downloader) (lineage : String) :
    Res Downloader :=
  match ensure_lineage_body w d lineage with
  | .err w1 (PyErr.keyError _) =>
      Res.err w1 (utilsError ("invalid lineage name: " ++ lineage))
  | r => r

/-- The startup loop over the default lineage names. -/
def ensure_list (w : World) (d : Downloader) : List String → Res Downloader
  | [] => Res.ok w d
  | l :: rest =>
      match ensure_lineage w d l with
      | .err w1 e => Res.err w1 e
      | .ok w1 d1 => ensure_list w1 d1 rest

/-- `Downloader.__init__(download_dir)`: pick the download directory
(default `"downloads"`), load the catalog via
`download_file_version_document`, then run the startup loop over the
default lineage names. -/
def Downloader.init (w : World) (download_dir : Option String) : Res Downloader :=
  let dir := download_dir.getD "downloads"
  match download_file_version_document w busco_base_url dir with
  | .err w1 e => Res.err w1 e
  | .ok w1 catalog =>
      ensure_list w1
        { base_url := busco_base_url, download_dir := dir,
          default_lineage := default_lineage_names,
          lineage_description := catalog }
        default_lineage_names

/-- `Downloader.has_local_lineage(lineage)`: `True` iff the entry's list has
exactly four elements; a missing key raises the fatal "invalid lineage
name" error; a `None` catalog raises TypeError (not caught by the KeyError
handler). -/
def Downloader.has_local_lineage (d : Downloader) (lineage : String) :
    Except PyErr Bool :=
  match d.lineage_description with
  | none => .error PyErr.typeError
  | some desc =>
      match dictGet desc lineage with
      | none => .error (utilsError ("invalid lineage name: " ++ lineage))
      | some entry => .ok (entry.length == 4)

/-! ### Dictionary and filesystem lemmas -/

theorem dictGet_dictInsert_self (d : Dict α) (k : String) (v : α) :
    dictGet (dictInsert d k v) k = some v := by
  induction d with
  | nil => simp [dictInsert, dictGet]
  | cons q t ih =>
      by_cases hq : q.1 = k
      · simp [dictInsert, dictGet, hq]
      · simp [dictInsert, dictGet, hq, ih]

theorem dictGet_dictInsert_ne (d : Dict α) {k k2 : String} (v : α) (hne : k ≠ k2) :
    dictGet (dictInsert d k v) k2 = dictGet d k2 := by
  induction d with
  | nil => simp [dictInsert, dictGet, hne]
  | cons q t ih =>
      by_cases hq : q.1 = k
      · simp [dictInsert, dictGet, hq, hne]
      · simp [dictInsert, dictGet, hq, ih]

theorem fsLookup_fsWrite_self (fs : Dict String) (p c : String) :
    fsLookup (fsWrite fs p c) p = some c :=
  dictGet_dictInsert_self fs p c

theorem fsLookup_fsWrite_ne (fs : Dict String) {p p2 : String} (c : String)
    (h : p ≠ p2) : fsLookup (fsWrite fs p c) p2 = fsLookup fs p2 :=
  dictGet_dictInsert_ne fs c h

theorem fsLookup_fsRemove_self (fs : Dict String) (p : String) :
    fsLookup (fsRemove fs p) p = none := by
  induction fs with
  | nil => simp [fsRemove, fsLookup, dictGet]
  | cons q t ih =>
      by_cases hq : q.1 = p
      · simp [fsRemove, hq, ih]
      · simpa [fsRemove, fsLookup, dictGet, hq] using ih

theorem strHasPre_append (p s : String) : strHasPre p (p ++ s) = true := by
  simp [strHasPre, String.data_append, List.isPrefixOf_iff_prefix,
    List.prefix_append]

theorem fsLookup_fsRemoveTree_under (fs : Dict String) {q p : String}
    (h : strHasPre (q ++ "/") p = true) :
    fsLookup (fsRemoveTree fs q) p = none := by
  induction fs with
  | nil => simp [fsRemoveTree, fsLookup, dictGet]
  | cons e t ih =>
      by_cases he : strHasPre (q ++ "/") e.1 = true
      · simp [fsRemoveTree, he, ih]
      · have hne : e.1 ≠ p := by
          intro hEq
          rw [hEq] at he
          exact he h
        simp [fsRemoveTree, he, fsLookup, dictGet, hne]
        exact ih

theorem fsLookup_extract_fold (ps : List (String × String)) (dir : String)
    (fs : Dict String) (p : String) (h : ∀ pc ∈ ps, dir ++ "/" ++ pc.1 ≠ p) :
    fsLookup (ps.foldl (fun a pc => fsWrite a (dir ++ "/" ++ pc.1) pc.2) fs) p =
      fsLookup fs p := by
  induction ps generalizing fs with
  | nil => rfl
  | cons e t ih =>
      rw [List.foldl_cons, ih _ (fun pc hpc => h pc (List.mem_cons_of_mem e hpc)),
        fsLookup_fsWrite_ne _ _ (h e (List.mem_cons_self e t))]

/-! ### Claim theorems -/

/-- Claim C3: when the transfer succeeds but the digest of the written local
file differs from `expected_hash`, `download_single_file` emits the
observed-vs-expected diagnostic, deletes the downloaded file, and raises the
fatal integrity error instead of returning `false`. -/
theorem download_single_file_mismatch_raises (w : World)
    (remote lp exp content : String)
    (hnet : w.net remote = some content) (hmm : w.hash content ≠ exp) :
    ∃ w1, download_single_file w remote lp exp =
        Res.err w1 (utilsError "Unable to download necessary files") ∧
      fsLookup w1.files lp = none ∧
      ("md5 hash is incorrect: " ++ w.hash content ++ " while " ++ exp ++
        " expected") ∈ w1.out := by
  refine ⟨{ w with
      reqs := w.reqs ++ [remote],
      files := fsRemove (fsWrite w.files lp content) lp,
      out := w.out ++ ["md5 hash is incorrect: " ++ w.hash content ++
          " while " ++ exp ++ " expected",
        "deleting corrupted file " ++ lp] }, ?_, ?_, ?_⟩
  · simp only [download_single_file, hnet, if_neg hmm]
  · exact fsLookup_fsRemove_self _ _
  · simp

/-- Claim C4: on a transport failure reaching the remote URL,
`download_single_file` returns `false`, raises nothing, and leaves the file
map untouched (no file is written). -/
theorem download_single_file_unreachable_returns_false (w : World)
    (remote lp exp : String) (hnet : w.net remote = none) :
    ∃ w1, download_single_file w remote lp exp = Res.ok w1 false ∧
      w1.files = w.files ∧ ("Cannot reach " ++ remote) ∈ w1.out := by
  refine ⟨{ w with
      reqs := w.reqs ++ [remote],
      out := w.out ++ ["Cannot reach " ++ remote] }, ?_, rfl, ?_⟩
  · simp only [download_single_file, hnet]
  · simp

/-- Claim C5: when the detached hash file is retrieved but the manifest fetch
reports unreachable, `download_file_version_document` returns Python `None`
(the null catalog) instead of raising. -/
theorem load_returns_none_on_unreachable_manifest (w : World)
    (base dir hc : String)
    (hhash : w.net (base ++ "file_versions.tsv.hash") = some hc)
    (hmani : w.net (base ++ "file_versions.tsv") = none) :
    (download_file_version_document w base dir).valOf = some none := by
  simp [download_file_version_document, hhash, fsLookup_fsWrite_self,
    download_single_file, hmani, Res.valOf]

/-- Claim C8: querying `has_local_lineage` with a name absent from the
catalog raises the fatal "invalid lineage name" error rather than returning
`false`. -/
theorem has_local_lineage_unknown_name_raises (d : Downloader)
    (desc : Dict (List String)) (l : String)
    (hdesc : d.lineage_description = some desc)
    (habs : dictGet desc l = none) :
    d.has_local_lineage l =
      Except.error (utilsError ("invalid lineage name: " ++ l)) := by
  simp [Downloader.has_local_lineage, hdesc, habs]

/-- Claim C10: when the catalog load returns the null catalog, the startup
loop of `Downloader.__init__` immediately subscripts `None` for the first
default name, so construction fails with a TypeError that the KeyError
handler does not catch. -/
theorem init_null_catalog_type_error (w : World) (dirOpt : Option String)
    (w1 : World)
    (hload : download_file_version_document w busco_base_url
        (dirOpt.getD "downloads") = Res.ok w1 none) :
    Downloader.init w dirOpt = Res.err w1 PyErr.typeError := by
  simp only [Downloader.init, hload]
  simp [ensure_list, ensure_lineage, ensure_lineage_body, default_lineage_names]

/-- Claim C9: whenever the startup corruption-cleanup branch is taken (the
local reference file exists but its digest mismatches the catalog hash), the
recursive removal of the dataset directory is followed by `os.remove` on a
path inside the already-removed directory, so construction aborts with a
FileNotFoundError — which the KeyError handler does not catch — and no
further network request (no re-download) happens after the catalog load. -/
theorem init_corrupt_cleanup_aborts (w : World) (dirOpt : Option String)
    (w1 : World) (cat : Dict (List String)) (date h c oh : String)
    (hload : download_file_version_document w busco_base_url
        (dirOpt.getD "downloads") = Res.ok w1 (some cat))
    (hent : dictGet cat "archaea_odb10" = some [date, h, c])
    (hfile : md5File w1
        (refseqPath (dirOpt.getD "downloads") "archaea_odb10") = some oh)
    (hne : oh ≠ h) :
    ∃ w2, Downloader.init w dirOpt = Res.err w2
        (PyErr.fileNotFound (refseqPath (dirOpt.getD "downloads") "archaea_odb10")) ∧
      w2.reqs = w1.reqs := by
  obtain ⟨content, hlk, hobs⟩ : ∃ content,
      fsLookup w1.files
        (refseqPath (dirOpt.getD "downloads") "archaea_odb10") = some content ∧
      w1.hash content = oh := by
    rcases hfs : fsLookup w1.files
        (refseqPath (dirOpt.getD "downloads") "archaea_odb10") with _ | c2
    · rw [md5File, hfs] at hfile
      simp at hfile
    · rw [md5File, hfs] at hfile
      simp at hfile
      exact ⟨c2, rfl, hfile⟩
  refine ⟨{ w1 with
      out := w1.out ++ ["md5 hash is incorrect: " ++ oh ++ " while " ++ h ++
        " expected"],
      files := fsRemoveTree w1.files
        (lineageDir (dirOpt.getD "downloads") "archaea_odb10") }, ?_, rfl⟩
  have hrt : fsLookup
      (fsRemoveTree w1.files (lineageDir (dirOpt.getD "downloads") "archaea_odb10"))
      (refseqPath (dirOpt.getD "downloads") "archaea_odb10") = none :=
    fsLookup_fsRemoveTree_under w1.files (strHasPre_append _ _)
  simp only [Downloader.init, hload, default_lineage_names, ensure_list,
    ensure_lineage, ensure_lineage_body, hent, hlk, hobs, List.get?,
    if_neg (Ne.symm hne), hrt]

/-- Claim C7 (amended): with a valid cached reference file, the per-dataset
ensure step of the startup protocol performs zero network requests and no
filesystem changes (the world comes back unchanged), but it appends the
cached path to the entry's record again instead of leaving the record
unchanged, so a repeated call grows the record past four fields. -/
theorem ensure_lineage_cached_valid (w : World) (d : Downloader)
    (desc : Dict (List String)) (l h : String) (entry : List String)
    (hdesc : d.lineage_description = some desc)
    (hentry : dictGet desc l = some entry)
    (hh : entry.get? 1 = some h)
    (hfile : md5File w (refseqPath d.download_dir l) = some h) :
    ensure_lineage w d l = Res.ok w { d with
      lineage_description :=
        some (dictInsert desc l (entry ++ [refseqPath d.download_dir l])) } := by
  obtain ⟨content, hlk, hobs⟩ : ∃ content,
      fsLookup w.files (refseqPath d.download_dir l) = some content ∧
      w.hash content = h := by
    rcases hfs : fsLookup w.files (refseqPath d.download_dir l) with _ | c2
    · rw [md5File, hfs] at hfile
      simp at hfile
    · rw [md5File, hfs] at hfile
      simp at hfile
      exact ⟨c2, rfl, hfile⟩
  simp only [ensure_lineage, ensure_lineage_body, hdesc, hentry, hh, hlk, hobs]
  simp

/-- Claim C2 (amended): for a catalog entry still carrying its three base
fields, a `download_lineage` call either aborts with the fatal integrity
error, or returns a state in which the entry is flagged locally available
(`has_local_lineage` true, i.e. the record carries a `localPath` as its
fourth field) exactly when the archive was downloaded and its digest equals
the entry's expected hash; repeated calls on an already-flagged entry break
this encoding (see the counterexample). -/
theorem download_lineage_localPath_iff_verified (w : World) (d : Downloader)
    (desc : Dict (List String)) (l date h c : String)
    (hdesc : d.lineage_description = some desc)
    (hentry : dictGet desc l = some [date, h, c])
    (hstale : fsLookup w.files (archivePath d.download_dir l date) = none)
    (hex : ∀ cc pr, pr ∈ w.extract cc →
      d.download_dir ++ "/" ++ pr.1 ≠ archivePath d.download_dir l date) :
    (∃ w1, Downloader.download_lineage w d (some l) =
        Res.err w1 (utilsError "Unable to download necessary files")) ∨
    (∃ w1 d1, Downloader.download_lineage w d (some l) = Res.ok w1 d1 ∧
      (d1.has_local_lineage l = Except.ok true ↔
        md5File w1 (archivePath d.download_dir l date) = some h)) := by
  rcases hn : w.net (archiveURL d.base_url l date) with _ | content
  · -- unreachable: no download, entry stays at three fields
    right
    refine ⟨{ w with
        reqs := w.reqs ++ [archiveURL d.base_url l date],
        out := w.out ++ ["Cannot reach " ++ archiveURL d.base_url l date] },
      d, ?_, ?_⟩
    · simp [Downloader.download_lineage, download_lineage_list,
        download_one_lineage, hdesc, hentry, download_single_file, hn]
    · simp only [Downloader.has_local_lineage, hdesc, hentry]
      simp [md5File, hstale]
  · by_cases hh : w.hash content = h
    · -- successful verified download: entry flagged, archive digest matches
      right
      refine ⟨{ w with
          reqs := w.reqs ++ [archiveURL d.base_url l date],
          files := (w.extract content).foldl
            (fun fs pc => fsWrite fs (d.download_dir ++ "/" ++ pc.1) pc.2)
            (fsWrite w.files (archivePath d.download_dir l date) content),
          out := w.out ++ ["Success download from " ++ archiveURL d.base_url l date,
            "md5 hash is " ++ w.hash content,
            "Gene library extraction finished",
            "Gene library ready! Reference file: " ++ refseqPath d.download_dir l] },
        { d with lineage_description := some (dictInsert desc l
            ([date, h, c] ++ [lineageDir d.download_dir l])) },
        ?_, ?_⟩
      · simp [Downloader.download_lineage, download_lineage_list,
          download_one_lineage, hdesc, hentry, download_single_file, hn,
          hh, fsLookup_fsWrite_self]
      · simp only [Downloader.has_local_lineage, dictGet_dictInsert_self]
        simp [md5File,
          fsLookup_extract_fold _ _ _ _ (fun pc hpc => hex content pc hpc),
          fsLookup_fsWrite_self, hh]
    · -- digest mismatch: fatal integrity error
      left
      refine ⟨{ w with
          reqs := w.reqs ++ [archiveURL d.base_url l date],
          files := fsRemove
            (fsWrite w.files (archivePath d.download_dir l date) content)
            (archivePath d.download_dir l date),
          out := w.out ++ ["md5 hash is incorrect: " ++ w.hash content ++
              " while " ++ h ++ " expected",
            "deleting corrupted file " ++ archivePath d.download_dir l date] },
        ?_⟩
      simp [Downloader.download_lineage, download_lineage_list,
        download_one_lineage, hdesc, hentry, download_single_file, hn,
        if_neg hh]

theorem list_length_eq_five {α : Type} :
    ∀ (l : List α), l.length = 5 → ∃ a b c d e, l = [a, b, c, d, e]
  | [a, b, c, d, e], _ => ⟨a, b, c, d, e, rfl⟩
  | [], h => by simp at h
  | [_], h => by simp at h
  | [_, _], h => by simp at h
  | [_, _, _], h => by simp at h
  | [_, _, _, _], h => by simp at h
  | _ :: _ :: _ :: _ :: _ :: _ :: _, h => by simp at h

/-- Characterization of the manifest-parsing loop: when every line has five
whitespace-separated fields, the name fields are pairwise distinct, and the
accumulator holds no name that a `lineages` line is about to bind, parsing
succeeds and the resulting dict binds a name to `[date, hash, category]`
exactly when such a `lineages` line occurs (or the binding came from the
accumulator); moreover every new binding has the three-field shape. -/
theorem parseManifestGo_spec (lines : List String) :
    ∀ acc : Dict (List String),
      (∀ line ∈ lines, (pySplit (pyStrip line)).length = 5) →
      List.Pairwise (fun l1 l2 =>
        (pySplit (pyStrip l1)).headD "" ≠ (pySplit (pyStrip l2)).headD "") lines →
      (∀ line ∈ lines, ∀ n d2 h2 c2,
        pySplit (pyStrip line) = [n, d2, h2, c2, "lineages"] → dictGet acc n = none) →
      ∃ cat, parseManifestGo lines acc = Except.ok cat ∧
        (∀ n d h c, dictGet cat n = some [d, h, c] ↔
          ((∃ line, line ∈ lines ∧ pySplit (pyStrip line) = [n, d, h, c, "lineages"]) ∨
            dictGet acc n = some [d, h, c])) ∧
        (∀ n v, dictGet cat n = some v →
          (∃ d h c, v = [d, h, c]) ∨ dictGet acc n = some v) := by
  induction lines with
  | nil =>
      intro acc _ _ _
      refine ⟨acc, rfl, ?_, fun n v hv => Or.inr hv⟩
      intro n d h c
      simp
  | cons line rest ih =>
      intro acc hfields hnodup hacc
      obtain ⟨a1, a2, a3, a4, a5, hsp⟩ :=
        list_length_eq_five _ (hfields line (List.mem_cons_self _ _))
      have hfr : ∀ l2 ∈ rest, (pySplit (pyStrip l2)).length = 5 :=
        fun l2 hl2 => hfields l2 (List.mem_cons_of_mem _ hl2)
      rw [List.pairwise_cons] at hnodup
      obtain ⟨hhead, hnr⟩ := hnodup
      have hhead1 : (pySplit (pyStrip line)).headD "" = a1 := by
        rw [hsp]
        rfl
      by_cases h5 : a5 = "lineages"
      · subst h5
        have hrestname : ∀ l2 ∈ rest, ∀ n d2 h2 c2,
            pySplit (pyStrip l2) = [n, d2, h2, c2, "lineages"] → n ≠ a1 := by
          intro l2 hl2 n d2 h2 c2 he hn
          apply hhead l2 hl2
          rw [hhead1, he, hn]
          rfl
        have haccr : ∀ l2 ∈ rest, ∀ n d2 h2 c2,
            pySplit (pyStrip l2) = [n, d2, h2, c2, "lineages"] →
            dictGet (dictInsert acc a1 [a2, a3, a4]) n = none := by
          intro l2 hl2 n d2 h2 c2 he
          rw [dictGet_dictInsert_ne _ _
            (fun hEq => hrestname l2 hl2 n d2 h2 c2 he hEq.symm)]
          exact hacc l2 (List.mem_cons_of_mem _ hl2) n d2 h2 c2 he
        have hacc1 : dictGet acc a1 = none :=
          hacc line (List.mem_cons_self _ _) a1 a2 a3 a4 hsp
        obtain ⟨cat, hgo, hiff, hshape⟩ :=
          ih (dictInsert acc a1 [a2, a3, a4]) hfr hnr haccr
        refine ⟨cat, ?_, ?_, ?_⟩
        · simp only [parseManifestGo, hsp]
          rw [if_neg (fun hne => hne rfl)]
          exact hgo
        · intro n d h c
          rw [hiff n d h c]
          by_cases hn : n = a1
          · subst hn
            constructor
            · rintro (⟨l2, hl2, he⟩ | hins)
              · exact absurd rfl (hrestname l2 hl2 n d h c he)
              · rw [dictGet_dictInsert_self] at hins
                injection hins with hv
                simp only [List.cons.injEq, and_true] at hv
                obtain ⟨h2, h3, h4⟩ := hv
                subst h2
                subst h3
                subst h4
                exact Or.inl ⟨line, List.mem_cons_self _ _, hsp⟩
            · rintro (⟨l2, hl2, he⟩ | hx)
              · rcases List.mem_cons.mp hl2 with rfl | hl2r
                · right
                  rw [dictGet_dictInsert_self]
                  rw [hsp] at he
                  simp only [List.cons.injEq, and_true] at he
                  obtain ⟨-, h2, h3, h4⟩ := he
                  rw [h2, h3, h4]
                · exact absurd rfl (hrestname l2 hl2r n d h c he)
              · rw [hacc1] at hx
                exact absurd hx (by simp)
          · have hne1 : a1 ≠ n := fun hEq => hn hEq.symm
            constructor
            · rintro (⟨l2, hl2, he⟩ | hx)
              · exact Or.inl ⟨l2, List.mem_cons_of_mem _ hl2, he⟩
              · rw [dictGet_dictInsert_ne _ _ hne1] at hx
                exact Or.inr hx
            · rintro (⟨l2, hl2, he⟩ | hx)
              · rcases List.mem_cons.mp hl2 with rfl | hl2r
                · rw [hsp] at he
                  simp only [List.cons.injEq] at he
                  exact absurd he.1.symm hn
                · exact Or.inl ⟨l2, hl2r, he⟩
              · right
                rw [dictGet_dictInsert_ne _ _ hne1]
                exact hx
        · intro n v hv
          rcases hshape n v hv with hsh | hins
          · exact Or.inl hsh
          · by_cases hn : n = a1
            · subst hn
              rw [dictGet_dictInsert_self] at hins
              injection hins with hv2
              exact Or.inl ⟨a2, a3, a4, hv2.symm⟩
            · rw [dictGet_dictInsert_ne _ _ (fun hEq => hn hEq.symm)] at hins
              exact Or.inr hins
      · have haccr : ∀ l2 ∈ rest, ∀ n d2 h2 c2,
            pySplit (pyStrip l2) = [n, d2, h2, c2, "lineages"] → dictGet acc n = none :=
          fun l2 hl2 n d2 h2 c2 he =>
            hacc l2 (List.mem_cons_of_mem _ hl2) n d2 h2 c2 he
        have hlm : ∀ n d2 h2 c2,
            pySplit (pyStrip line) ≠ [n, d2, h2, c2, "lineages"] := by
          intro n d2 h2 c2 he
          rw [hsp] at he
          simp only [List.cons.injEq, and_true] at he
          exact h5 he.2.2.2.2
        obtain ⟨cat, hgo, hiff, hshape⟩ := ih acc hfr hnr haccr
        refine ⟨cat, ?_, ?_, hshape⟩
        · simp only [parseManifestGo, hsp]
          rw [if_pos h5]
          exact hgo
        · intro n d h c
          rw [hiff n d h c]
          constructor
          · rintro (⟨l2, hl2, he⟩ | hx)
            · exact Or.inl ⟨l2, List.mem_cons_of_mem _ hl2, he⟩
            · exact Or.inr hx
          · rintro (⟨l2, hl2, he⟩ | hx)
            · rcases List.mem_cons.mp hl2 with rfl | hl2r
              · exact absurd he (hlm n d h c)
              · exact Or.inl ⟨l2, hl2r, he⟩
            · exact Or.inr hx

/-- Claim C6: for a manifest whose lines each split into exactly five
whitespace-separated fields (with pairwise-distinct name fields), the
catalog built by the load operation binds exactly the names of the lines
whose `infoKind` field equals `"lineages"`, each to that line's
`[date, hash, category]`; names with no such line — in particular the names
of lines with any other `infoKind` — are absent. -/
theorem manifest_filtering (w : World) (base dir mc hc : String)
    (hnethash : w.net (base ++ "file_versions.tsv.hash") = some hc)
    (hnetmani : w.net (base ++ "file_versions.tsv") = some mc)
    (hmatch : w.hash mc = firstLineStrip hc)
    (hfields : ∀ line ∈ pyLines mc, (pySplit (pyStrip line)).length = 5)
    (hnodup : List.Pairwise (fun l1 l2 =>
      (pySplit (pyStrip l1)).headD "" ≠ (pySplit (pyStrip l2)).headD "") (pyLines mc)) :
    ∃ w1 cat, download_file_version_document w base dir = Res.ok w1 (some cat) ∧
      (∀ n d h c, dictGet cat n = some [d, h, c] ↔
        ∃ line, line ∈ pyLines mc ∧ pySplit (pyStrip line) = [n, d, h, c, "lineages"]) ∧
      (∀ n, dictGet cat n = none ↔
        ∀ line ∈ pyLines mc, ∀ d h c,
          pySplit (pyStrip line) ≠ [n, d, h, c, "lineages"]) := by
  obtain ⟨cat, hgo, hiff, hshape⟩ :=
    parseManifestGo_spec (pyLines mc) [] hfields hnodup
      (fun _ _ _ _ _ _ _ => rfl)
  refine ⟨{ w with
      reqs := w.reqs ++ [base ++ "file_versions.tsv.hash",
        base ++ "file_versions.tsv"],
      files := fsWrite (fsWrite w.files (dir ++ "/file_versions.tsv.hash") hc)
        (dir ++ "/file_versions.tsv") mc,
      out := w.out ++ ["Success download from " ++ (base ++ "file_versions.tsv"),
        "md5 hash is " ++ w.hash mc] },
    cat, ?_, ?_, ?_⟩
  · simp [download_file_version_document, hnethash, fsLookup_fsWrite_self,
      download_single_file, hnetmani, hmatch, parseManifest, hgo]
  · intro n d h c
    rw [hiff n d h c]
    simp [dictGet]
  · intro n
    constructor
    · intro hnone line hl d h c he
      have hsome : dictGet cat n = some [d, h, c] :=
        (hiff n d h c).mpr (Or.inl ⟨line, hl, he⟩)
      rw [hnone] at hsome
      exact absurd hsome (by simp)
    · intro hno
      rcases hdg : dictGet cat n with _ | v
      · rfl
      · rcases hshape n v hdg with ⟨d, h, c, rfl⟩ | habs
        · rcases (hiff n d h c).mp hdg with ⟨line, hl, he⟩ | habs
          · exact absurd he (hno line hl d h c)
          · exact absurd habs (by simp [dictGet])
        · exact absurd habs (by simp [dictGet])

/-! ### Concrete scenarios: counterexamples, failing inputs and witnesses -/

/-- A manifest carrying the three default lineages. -/
def defaultsManifest : String :=
  "archaea_odb10 D1 H1 prok lineages\nbacteria_odb10 D2 H2 prok lineages\neukaryota_odb10 D3 H3 euk lineages\n"

/-- Startup world with a stale (corrupt) local reference file for
`archaea_odb10`: the catalog downloads fine, the stale file hashes to
`"XX"` while the catalog expects `"H1"`. -/
def staleWorld : World :=
  { files := [(refseqPath "downloads" "archaea_odb10", "STALE")],
    net := fun u =>
      if u = busco_base_url ++ "file_versions.tsv.hash" then some "MH\n"
      else if u = busco_base_url ++ "file_versions.tsv" then some defaultsManifest
      else none,
    hash := fun c => if c = defaultsManifest then "MH" else "XX",
    extract := fun _ => [],
    reqs := [],
    out := [] }

/-- The world right after the catalog load in `staleWorld`. -/
def staleLoadWorld : World :=
  { staleWorld with
    files := fsWrite (fsWrite staleWorld.files
      "downloads/file_versions.tsv.hash" "MH\n")
      "downloads/file_versions.tsv" defaultsManifest,
    reqs := [busco_base_url ++ "file_versions.tsv.hash",
      busco_base_url ++ "file_versions.tsv"],
    out := ["Success download from " ++ (busco_base_url ++ "file_versions.tsv"),
      "md5 hash is MH"] }

/-- The catalog parsed from `defaultsManifest`. -/
def staleCat : Dict (List String) :=
  [("archaea_odb10", ["D1", "H1", "prok"]),
   ("bacteria_odb10", ["D2", "H2", "prok"]),
   ("eukaryota_odb10", ["D3", "H3", "euk"])]

/-- Claim C1 (evaluation at the failing input): with the catalog mapping
`archaea_odb10` to expected hash `H1` and a stale local reference file whose
digest `XX` differs, construction aborts with a FileNotFoundError raised by
the cleanup itself, and the only network requests ever made are the two
catalog fetches — no re-download happens, so no new local digest can match
`expectedHash`. -/
theorem init_corruption_recovery_fails_eval :
    Res.errOf (Downloader.init staleWorld none) =
      some (PyErr.fileNotFound (refseqPath "downloads" "archaea_odb10")) ∧
    (Downloader.init staleWorld none).worldOf.reqs =
      [busco_base_url ++ "file_versions.tsv.hash",
       busco_base_url ++ "file_versions.tsv"] :=
  ⟨rfl, rfl⟩

/-- Witness for `init_corrupt_cleanup_aborts` (claim C9). -/
theorem init_corrupt_cleanup_aborts_witness :
    (download_file_version_document staleWorld busco_base_url
        ((none : Option String).getD "downloads") =
      Res.ok staleLoadWorld (some staleCat)) ∧
    dictGet staleCat "archaea_odb10" = some ["D1", "H1", "prok"] ∧
    md5File staleLoadWorld
      (refseqPath ((none : Option String).getD "downloads") "archaea_odb10") =
      some "XX" ∧
    ("XX" : String) ≠ "H1" ∧
    (∃ w2, Downloader.init staleWorld none = Res.err w2
        (PyErr.fileNotFound
          (refseqPath ((none : Option String).getD "downloads") "archaea_odb10")) ∧
      w2.reqs = staleLoadWorld.reqs) :=
  ⟨rfl, by decide, rfl, by decide,
    init_corrupt_cleanup_aborts staleWorld none staleLoadWorld staleCat
      "D1" "H1" "prok" "XX" rfl (by decide) rfl (by decide)⟩

/-- Clean-start world in which all three default lineage archives are
reachable and hash-valid. -/
def cleanWorld : World :=
  { files := [],
    net := fun u =>
      if u = busco_base_url ++ "file_versions.tsv.hash" then some "MH\n"
      else if u = busco_base_url ++ "file_versions.tsv" then some defaultsManifest
      else if u = archiveURL busco_base_url "archaea_odb10" "D1" then some "A1"
      else if u = archiveURL busco_base_url "bacteria_odb10" "D2" then some "B1"
      else if u = archiveURL busco_base_url "eukaryota_odb10" "D3" then some "E1"
      else none,
    hash := fun c =>
      if c = defaultsManifest then "MH"
      else if c = "A1" then "H1"
      else if c = "B1" then "H2"
      else if c = "E1" then "H3"
      else "XX",
    extract := fun _ => [],
    reqs := [],
    out := [] }

/-- Construct the orchestrator on `cleanWorld`, then call the
dataset-download operation once more on the already-available
`archaea_odb10`. -/
def c2Run : Res Downloader :=
  (Downloader.init cleanWorld none).andThen
    (fun w d => d.download_lineage w (some "archaea_odb10"))

/-- Claim C2 (counterexample): after construction and one further
`download_lineage` call, the `archaea_odb10` archive sits on disk with
digest `H1`, equal to the catalog's expected hash — the dataset is verified
present — yet the entry's record has five fields (the local path appended
twice), so it does not carry a `localPath` in the four-field encoding and
`has_local_lineage` answers `false`. -/
theorem localPath_invariant_counterexample :
    (c2Run.valOf).map (fun d => d.has_local_lineage "archaea_odb10") =
      some (Except.ok false) ∧
    md5File c2Run.worldOf (archivePath "downloads" "archaea_odb10" "D1") =
      some "H1" ∧
    (c2Run.valOf).bind (fun d => d.lineage_description.bind
      (fun dd => dictGet dd "archaea_odb10")) =
      some ["D1", "H1", "prok", lineageDir "downloads" "archaea_odb10",
        lineageDir "downloads" "archaea_odb10"] :=
  ⟨rfl, rfl, rfl⟩

/-- Catalog and state for the cached-archive (ensure) scenarios. -/
def c7desc : Dict (List String) := [("archaea_odb10", ["D1", "H1", "prok"])]

/-- Orchestrator state holding `c7desc` as its catalog. -/
def c7d : Downloader :=
  { base_url := busco_base_url,
    download_dir := "downloads",
    default_lineage := default_lineage_names,
    lineage_description := some c7desc }

/-- World with a cached, hash-valid reference file and no reachable
network at all. -/
def c7World : World :=
  { files := [(refseqPath "downloads" "archaea_odb10", "R")],
    net := fun _ => none,
    hash := fun c => if c = "R" then "H1" else "XX",
    extract := fun _ => [],
    reqs := [],
    out := [] }

/-- First ensure call on the cached dataset. -/
def c7Run1 : Res Downloader := ensure_lineage c7World c7d "archaea_odb10"

/-- Second ensure call, immediately after the first. -/
def c7Run2 : Res Downloader :=
  c7Run1.andThen (fun w d => ensure_lineage w d "archaea_odb10")

/-- Claim C7 (counterexample): with a valid cached archive the first ensure
call flags the dataset available; the second call indeed performs zero
network requests, but it appends the cached path a second time, so the
record ends up with five fields and the availability query flips to
`false` — the entry's `localPath` encoding does not stay unchanged. -/
theorem ensure_idempotence_counterexample :
    (c7Run1.valOf).map (fun d => d.has_local_lineage "archaea_odb10") =
      some (Except.ok true) ∧
    (c7Run2.valOf).map (fun d => d.has_local_lineage "archaea_odb10") =
      some (Except.ok false) ∧
    c7Run2.worldOf.reqs = c7Run1.worldOf.reqs ∧
    (c7Run2.valOf).bind (fun d => d.lineage_description.bind
      (fun dd => dictGet dd "archaea_odb10")) =
      some ["D1", "H1", "prok", refseqPath "downloads" "archaea_odb10",
        refseqPath "downloads" "archaea_odb10"] :=
  ⟨rfl, rfl, rfl, rfl⟩

/-- Witness for `ensure_lineage_cached_valid` (claim C7, amended). -/
theorem ensure_lineage_cached_valid_witness :
    c7d.lineage_description = some c7desc ∧
    dictGet c7desc "archaea_odb10" = some ["D1", "H1", "prok"] ∧
    (["D1", "H1", "prok"] : List String).get? 1 = some "H1" ∧
    md5File c7World (refseqPath c7d.download_dir "archaea_odb10") = some "H1" ∧
    ensure_lineage c7World c7d "archaea_odb10" = Res.ok c7World
      { c7d with lineage_description := some (dictInsert c7desc "archaea_odb10"
          (["D1", "H1", "prok"] ++ [refseqPath c7d.download_dir "archaea_odb10"])) } :=
  ⟨rfl, by decide, rfl, rfl,
    ensure_lineage_cached_valid c7World c7d c7desc "archaea_odb10" "H1"
      ["D1", "H1", "prok"] rfl (by decide) rfl rfl⟩

/-- World for the mismatching single-file fetch. -/
def c3World : World :=
  { files := [],
    net := fun u => if u = "u" then some "c" else none,
    hash := fun s => "h" ++ s,
    extract := fun _ => [],
    reqs := [],
    out := [] }

/-- Witness for `download_single_file_mismatch_raises` (claim C3). -/
theorem download_single_file_mismatch_raises_witness :
    c3World.net "u" = some "c" ∧ c3World.hash "c" ≠ "E" ∧
    (∃ w1, download_single_file c3World "u" "f" "E" =
        Res.err w1 (utilsError "Unable to download necessary files") ∧
      fsLookup w1.files "f" = none ∧
      ("md5 hash is incorrect: " ++ c3World.hash "c" ++ " while " ++ "E" ++
        " expected") ∈ w1.out) :=
  ⟨rfl, by decide,
    download_single_file_mismatch_raises c3World "u" "f" "E" "c" rfl (by decide)⟩

/-- World for the unreachable single-file fetch (a pre-existing unrelated
file shows that the file map is left exactly as it was). -/
def c4World : World :=
  { files := [("f", "old")],
    net := fun _ => none,
    hash := fun s => s,
    extract := fun _ => [],
    reqs := [],
    out := [] }

/-- Witness for `download_single_file_unreachable_returns_false` (claim C4). -/
theorem download_single_file_unreachable_returns_false_witness :
    c4World.net "u" = none ∧
    (∃ w1, download_single_file c4World "u" "f" "E" = Res.ok w1 false ∧
      w1.files = c4World.files ∧ ("Cannot reach " ++ "u") ∈ w1.out) :=
  ⟨rfl, download_single_file_unreachable_returns_false c4World "u" "f" "E" rfl⟩

/-- World where the detached hash file is reachable but the manifest is
not. -/
def c10World : World :=
  { files := [],
    net := fun u =>
      if u = busco_base_url ++ "file_versions.tsv.hash" then some "MH\n"
      else none,
    hash := fun s => s,
    extract := fun _ => [],
    reqs := [],
    out := [] }

/-- Witness for `load_returns_none_on_unreachable_manifest` (claim C5). -/
theorem load_returns_none_on_unreachable_manifest_witness :
    c10World.net (busco_base_url ++ "file_versions.tsv.hash") = some "MH\n" ∧
    c10World.net (busco_base_url ++ "file_versions.tsv") = none ∧
    (download_file_version_document c10World busco_base_url "downloads").valOf =
      some none :=
  ⟨rfl, rfl,
    load_returns_none_on_unreachable_manifest c10World busco_base_url
      "downloads" "MH\n" rfl rfl⟩

/-- The world right after the catalog load fails over to the null catalog
in `c10World`. -/
def c10LoadWorld : World :=
  { c10World with
    files := fsWrite c10World.files "downloads/file_versions.tsv.hash" "MH\n",
    reqs := [busco_base_url ++ "file_versions.tsv.hash",
      busco_base_url ++ "file_versions.tsv"],
    out := ["Cannot reach " ++ (busco_base_url ++ "file_versions.tsv")] }

/-- Witness for `init_null_catalog_type_error` (claim C10). -/
theorem init_null_catalog_type_error_witness :
    (download_file_version_document c10World busco_base_url
        ((none : Option String).getD "downloads") = Res.ok c10LoadWorld none) ∧
    Downloader.init c10World none = Res.err c10LoadWorld PyErr.typeError :=
  ⟨rfl, init_null_catalog_type_error c10World none c10LoadWorld rfl⟩

/-- Orchestrator state for the unknown-name query. -/
def c8d : Downloader :=
  { base_url := busco_base_url,
    download_dir := "downloads",
    default_lineage := default_lineage_names,
    lineage_description := some [("archaea_odb10", ["D1", "H1", "prok"])] }

/-- Witness for `has_local_lineage_unknown_name_raises` (claim C8). -/
theorem has_local_lineage_unknown_name_raises_witness :
    c8d.lineage_description = some [("archaea_odb10", ["D1", "H1", "prok"])] ∧
    dictGet [("archaea_odb10", ["D1", "H1", "prok"])] "nonexistent_odb10" = none ∧
    c8d.has_local_lineage "nonexistent_odb10" =
      Except.error (utilsError ("invalid lineage name: " ++ "nonexistent_odb10")) :=
  ⟨rfl, by decide,
    has_local_lineage_unknown_name_raises c8d _ "nonexistent_odb10" rfl (by decide)⟩

/-- State for the amended-C2 witness: one catalog entry, reachable valid
archive, nothing on disk. -/
def c2amD : Downloader :=
  { base_url := busco_base_url,
    download_dir := "downloads",
    default_lineage := default_lineage_names,
    lineage_description := some [("l1", ["D1", "H1", "cat"])] }

/-- World backing the amended-C2 witness. -/
def c2amWorld : World :=
  { files := [],
    net := fun u =>
      if u = archiveURL busco_base_url "l1" "D1" then some "A1" else none,
    hash := fun s => if s = "A1" then "H1" else "XX",
    extract := fun _ => [],
    reqs := [],
    out := [] }

/-- Witness for `download_lineage_localPath_iff_verified` (claim C2, amended). -/
theorem download_lineage_localPath_iff_verified_witness :
    c2amD.lineage_description = some [("l1", ["D1", "H1", "cat"])] ∧
    dictGet [("l1", ["D1", "H1", "cat"])] "l1" = some ["D1", "H1", "cat"] ∧
    fsLookup c2amWorld.files (archivePath c2amD.download_dir "l1" "D1") = none ∧
    ((∃ w1, Downloader.download_lineage c2amWorld c2amD (some "l1") =
        Res.err w1 (utilsError "Unable to download necessary files")) ∨
     (∃ w1 d1, Downloader.download_lineage c2amWorld c2amD (some "l1") =
        Res.ok w1 d1 ∧
       (d1.has_local_lineage "l1" = Except.ok true ↔
         md5File w1 (archivePath c2amD.download_dir "l1" "D1") = some "H1"))) :=
  ⟨rfl, by decide, rfl,
    download_lineage_localPath_iff_verified c2amWorld c2amD
      [("l1", ["D1", "H1", "cat"])] "l1" "D1" "H1" "cat" rfl (by decide) rfl
      (fun cc pr hpr => absurd hpr (List.not_mem_nil pr))⟩

/-- Manifest with mixed `infoKind` values, from the spec's example. -/
def mixedManifest : String :=
  "foo 2021-01-01 aaa category1 lineages\nbar 2021-01-01 bbb category2 other\n"

/-- World serving `mixedManifest` with a matching detached hash. -/
def c6World : World :=
  { files := [],
    net := fun u =>
      if u = busco_base_url ++ "file_versions.tsv.hash" then some "MH\n"
      else if u = busco_base_url ++ "file_versions.tsv" then some mixedManifest
      else none,
    hash := fun s => if s = mixedManifest then "MH" else "ZZ",
    extract := fun _ => [],
    reqs := [],
    out := [] }

/-- Witness for `manifest_filtering` (claim C6). -/
theorem manifest_filtering_witness :
    c6World.net (busco_base_url ++ "file_versions.tsv.hash") = some "MH\n" ∧
    c6World.net (busco_base_url ++ "file_versions.tsv") = some mixedManifest ∧
    c6World.hash mixedManifest = firstLineStrip "MH\n" ∧
    (∀ line ∈ pyLines mixedManifest, (pySplit (pyStrip line)).length = 5) ∧
    List.Pairwise (fun l1 l2 =>
      (pySplit (pyStrip l1)).headD "" ≠ (pySplit (pyStrip l2)).headD "")
      (pyLines mixedManifest) ∧
    (∃ w1 cat, download_file_version_document c6World busco_base_url
        "downloads" = Res.ok w1 (some cat) ∧
      (∀ n d h c, dictGet cat n = some [d, h, c] ↔
        ∃ line, line ∈ pyLines mixedManifest ∧
          pySplit (pyStrip line) = [n, d, h, c, "lineages"]) ∧
      (∀ n, dictGet cat n = none ↔
        ∀ line ∈ pyLines mixedManifest, ∀ d h c,
          pySplit (pyStrip line) ≠ [n, d, h, c, "lineages"])) :=
  ⟨rfl, rfl, by decide, by decide, by decide,
    manifest_filtering c6World busco_base_url "downloads" mixedManifest "MH\n"
      rfl rfl (by decide) (by decide) (by decide)⟩

end Minibusco
